import Mathlib

/-!
Shallow embedding of the garden-simulation core of the 3D garden game
(`src/unnamed/part_001`, class `GardenGame`).  The embedded parts are the
tile registry (`tilledSoil`, `plants`), the inventory, the obstacle model,
the crop growth engine (`waterPlant`/`growPlant`), the interaction
dispatcher (`handleClick`) and the save/load codec (`saveGame`/
`loadSaveGame`).  Purely visual code (meshes, particles, DOM dialogs) is
omitted.

JavaScript objects are mutable and shared by reference.  The live plant
objects and the inventory object are therefore modelled through explicit
object heaps (`plantHeap`, `invHeap`) addressed by numeric ids: the save
records produced by `saveGame` store ids into the same heaps, exactly as
the JS save records store references into the same object graph.
-/

namespace Garden

/-- The four crop/seed types of the inventory (constructor, lines 40-45). -/
inductive CropType
  | corn
  | tomato
  | melon
  | strawberry
deriving DecidableEq

/-- The three toolbar tools (`setupUI`, lines 437-441). -/
inductive Tool
  | axe
  | hoe
  | water
deriving DecidableEq

/-- Obstacle kinds (`userData.type` of `createTree` / `createRock`). -/
inductive ObstacleKind
  | tree
  | rock
deriving DecidableEq

/-- Failure cases of the planting operation (spec taxonomy; each names the
source branch that rejects the action: the `tilledSoil.has(key)` guard of
`handleClick` line 176, the `plants.has(key)` check, and the
`count <= 0` check of `plantSeed` lines 916-917). -/
inductive PlantError
  | NotTilled
  | AlreadyPlanted
  | InsufficientSeed
deriving DecidableEq

/-- Failure cases of `harvestPlant` (the `!plant` and `!plant.isHarvestable`
checks of line 1333). -/
inductive HarvestError
  | NoPlant
  | NotReady
deriving DecidableEq

/-- Failure case of damaging an obstacle: the raycast over `this.obstacles`
cannot hit an obstacle that has been removed from the live set. -/
inductive DamageError
  | NotFound
deriving DecidableEq

/-- A tile key: the JS string key used in the source is
the string of the two integer grid coordinates, so keys are
in bijection with integer pairs. -/
abbrev TileKey := Int × Int

/-- The state fields of a plant object (lines 931-937; the `mesh` field is
visual and omitted).  The `growth` field is written once at creation and
only ever copied, but it is part of the stored object so it is kept. -/
structure PlantData where
  type : CropType
  growth : Nat
  waterCount : Nat
  isHarvestable : Bool
deriving DecidableEq

/-- The count fields of the inventory object (constructor, lines 40-45;
the `icon` and `name` fields are presentation only).  Counts are integers:
the source uses plain JS numbers with `--` and `+=`. -/
structure Inventory where
  corn : Int
  tomato : Int
  melon : Int
  strawberry : Int
deriving DecidableEq

/-- Read the count stored for a crop type. -/
def Inventory.get (inv : Inventory) : CropType → Int
  | .corn => inv.corn
  | .tomato => inv.tomato
  | .melon => inv.melon
  | .strawberry => inv.strawberry

/-- Write the count stored for a crop type. -/
def Inventory.setCount (inv : Inventory) (c : CropType) (v : Int) : Inventory :=
  match c with
  | .corn => { inv with corn := v }
  | .tomato => { inv with tomato := v }
  | .melon => { inv with melon := v }
  | .strawberry => { inv with strawberry := v }

/-- An obstacle's simulation state: `userData.type` and `userData.health`
(lines 768-769 and 794-795; the mesh position is visual and omitted). -/
structure Obstacle where
  kind : ObstacleKind
  health : Int
deriving DecidableEq

/-- A stored save (`gameState` object built at lines 1687-1692).  The
`inventory` field of the JS record is a reference to the live inventory
object, modelled as the id `invId` into `invHeap`; the `plants` entries
pair each tile key with the id of the very plant object that is live at
save time.  The `timestamp` field is presentation only and omitted. -/
structure SaveRecord where
  invId : Nat
  plants : List (TileKey × Nat)
  tilledSoil : List TileKey
deriving DecidableEq

/-- The simulation state of a `GardenGame` instance.  `plantHeap` and
`invHeap` are the object stores for plant objects and inventory objects:
ids are list indices, allocation appends.  `plants` and `tilledSoil`
mirror the two JS `Map`s (tile key to plant reference, tile key to soil
mesh — only key membership matters for the soil map).  `obstacles` is the
live obstacle array, with ids standing for JS object identity. -/
structure GameState where
  plantHeap : List PlantData
  invHeap : List Inventory
  invId : Nat
  plants : List (TileKey × Nat)
  tilledSoil : List TileKey
  obstacles : List (Nat × Obstacle)
  savedGames : List (String × SaveRecord)
deriving DecidableEq

/-- Dereferencing a plant id.  A dangling id never occurs in reachable
states; the default keeps the function total. -/
def defaultPlant : PlantData := ⟨.corn, 0, 0, false⟩

/-- Lookup in the plants map (`this.plants.get(key)` / `has(key)`). -/
def findPlant : List (TileKey × Nat) → TileKey → Option Nat
  | [], _ => none
  | (k', id) :: rest, k => if k' = k then some id else findPlant rest k

/-- Deletion from the plants map (`this.plants.delete(key)`). -/
def removePlant (ps : List (TileKey × Nat)) (k : TileKey) : List (TileKey × Nat) :=
  ps.filter (fun e => e.1 ≠ k)

/-- Deletion from the tilled-soil map (`this.tilledSoil.delete(key)`). -/
def removeTilled (ts : List TileKey) (k : TileKey) : List TileKey :=
  ts.filter (fun k' => k' ≠ k)

/-- Find a live obstacle by identity (the raycast over `this.obstacles`). -/
def findObstacle : List (Nat × Obstacle) → Nat → Option Obstacle
  | [], _ => none
  | (i, ob) :: rest, oid => if i = oid then some ob else findObstacle rest oid

/-- In-place update of the found obstacle object (`userData.health--`). -/
def updateObstacle : List (Nat × Obstacle) → Nat → Obstacle → List (Nat × Obstacle)
  | [], _, _ => []
  | (i, ob) :: rest, oid, newOb =>
      if i = oid then (i, newOb) :: rest else (i, ob) :: updateObstacle rest oid newOb

/-- Removal of the found obstacle (`this.obstacles.splice(index, 1)` at the
index delivered by `indexOf`, i.e. the first identity match). -/
def removeObstacle : List (Nat × Obstacle) → Nat → List (Nat × Obstacle)
  | [], _ => []
  | (i, ob) :: rest, oid => if i = oid then rest else (i, ob) :: removeObstacle rest oid

/-- Lookup in the saves collection (`this.savedGames[saveName]`). -/
def lookupSave : List (String × SaveRecord) → String → Option SaveRecord
  | [], _ => none
  | (n, r) :: rest, name => if n = name then some r else lookupSave rest name

/-- Overwriting insertion into the saves collection
(`this.savedGames[saveName] = gameState`, line 1694). -/
def insertSave : List (String × SaveRecord) → String → SaveRecord → List (String × SaveRecord)
  | [], name, r => [(name, r)]
  | (n, r') :: rest, name, r =>
      if n = name then (n, r) :: rest else (n, r') :: insertSave rest name r

/-- The inventory object currently referenced by `this.inventory`. -/
def liveInventory (s : GameState) : Inventory :=
  (s.invHeap[s.invId]?).getD ⟨0, 0, 0, 0⟩

/-- Mutation of the inventory object referenced by `this.inventory`. -/
def writeInventory (s : GameState) (inv : Inventory) : GameState :=
  { s with invHeap := s.invHeap.set s.invId inv }

/-- The plant object currently stored at a key, if any. -/
def plantAt (s : GameState) (k : TileKey) : Option PlantData :=
  match findPlant s.plants k with
  | none => none
  | some id => some ((s.plantHeap[id]?).getD defaultPlant)

/-- Lines 897-913, `tillSoil`: no-op if the key is already tilled,
otherwise record the key (the soil mesh is visual and omitted). -/
def tillSoil (s : GameState) (k : TileKey) : GameState :=
  if k ∈ s.tilledSoil then s else { s with tilledSoil := k :: s.tilledSoil }

/-- Lines 915-943, the `plantSeed` method with `seed` standing for
`this.selectedSeed` (always one of the four inventory keys, so the JS
`!this.inventory[this.selectedSeed]` check is always false).  The
`Except` component names which source branch ran: the `plants.has(key)`
early return, the `count <= 0` early return, or the success path that
allocates the plant object and decrements the seed count. -/
def plantSeed (s : GameState) (k : TileKey) (seed : CropType) :
    Except PlantError Unit × GameState :=
  if (findPlant s.plants k).isSome then (.error .AlreadyPlanted, s)
  else if (liveInventory s).get seed ≤ 0 then (.error .InsufficientSeed, s)
  else
    let id := s.plantHeap.length
    let s1 := { s with
      plantHeap := s.plantHeap ++ [⟨seed, 0, 0, false⟩],
      plants := (k, id) :: s.plants }
    (.ok (), writeInventory s1 ((liveInventory s).setCount seed ((liveInventory s).get seed - 1)))

/-- The planting action as the interaction dispatcher exposes it: the
guard of `handleClick` line 176 (`tilledSoil.has(key) && !plants.has(key)`)
composed with the `plantSeed` method.  An untilled key never reaches the
method, which is the `NotTilled` failure of the spec taxonomy. -/
def plantSeedAction (s : GameState) (k : TileKey) (seed : CropType) :
    Except PlantError Unit × GameState :=
  if k ∈ s.tilledSoil then plantSeed s k seed else (.error .NotTilled, s)

/-- Lines 1156-1159 of `growPlant`: the growth-stage recomputation sets
`isHarvestable` exactly when `growthStep = waterCount / 3` equals 1, i.e.
when `waterCount = 3` (all visual rebuilding omitted). -/
def growPlant (p : PlantData) : PlantData :=
  if p.waterCount = 3 then { p with isHarvestable := true } else p

/-- Lines 945-959, `waterPlant`: no-op without a plant, no-op once
`waterCount >= 3 || isHarvestable`, otherwise increment `waterCount` and
run `growPlant` on the same object (the water particles are visual). -/
def waterPlant (s : GameState) (k : TileKey) : GameState :=
  match findPlant s.plants k with
  | none => s
  | some id =>
    match s.plantHeap[id]? with
    | none => s
    | some p =>
      if 3 ≤ p.waterCount ∨ p.isHarvestable then s
      else { s with plantHeap := s.plantHeap.set id (growPlant { p with waterCount := p.waterCount + 1 }) }

/-- Lines 1331-1344, `harvestPlant`: requires a harvestable plant, credits
`inventory[plant.type].count` by `Math.floor(Math.random() * 3) + 1`
(the random draw is `roll : Fin 3`), then deletes both the plant and the
tilled marker.  The `Except` value names the branch: no plant, plant not
harvestable, or success carrying the credited amount. -/
def harvestPlant (s : GameState) (k : TileKey) (roll : Fin 3) :
    Except HarvestError Nat × GameState :=
  match findPlant s.plants k with
  | none => (.error .NoPlant, s)
  | some id =>
    let p := (s.plantHeap[id]?).getD defaultPlant
    if p.isHarvestable then
      let amount : Nat := roll.val + 1
      let s1 := writeInventory s ((liveInventory s).setCount p.type ((liveInventory s).get p.type + amount))
      (.ok amount, { s1 with plants := removePlant s1.plants k,
                             tilledSoil := removeTilled s1.tilledSoil k })
    else (.error .NotReady, s)

/-- Lines 801-826, `damageObstacle` at the dispatcher level: the raycast
can only deliver an obstacle that is still in `this.obstacles`, so a
missing id is the `NotFound` failure.  Otherwise health is decremented in
place; if it reaches 0 or below the obstacle is removed from the live set.
The boolean reports whether this call destroyed the obstacle (the
`health <= 0` branch condition of line 819). -/
def damageObstacle (s : GameState) (oid : Nat) : Except DamageError Bool × GameState :=
  match findObstacle s.obstacles oid with
  | none => (.error .NotFound, s)
  | some ob =>
    let newHealth := ob.health - 1
    if newHealth ≤ 0 then
      (.ok true, { s with obstacles := removeObstacle s.obstacles oid })
    else
      (.ok false, { s with obstacles := updateObstacle s.obstacles oid { ob with health := newHealth } })

/-- Lines 1684-1698, the save-button listener: the stored record keeps a
reference to the live inventory object (`inventory: this.inventory`), the
spread of the live plant map entries (fresh array, shared plant objects)
and the array of tilled keys; it overwrites any record of the same name. -/
def saveGame (s : GameState) (name : String) : GameState :=
  let record : SaveRecord := { invId := s.invId, plants := s.plants, tilledSoil := s.tilledSoil }
  { s with savedGames := insertSave s.savedGames name record }

/-- One iteration of the plant-restoring loop of `loadSaveGame`
(lines 1803-1829): till the key, allocate a fresh plant object whose
fields are copied from the saved object as it is now, and if its
`waterCount` is positive run `growPlant` on the new object. -/
def restorePlant (acc : GameState) (e : TileKey × Nat) : GameState :=
  let acc1 := tillSoil acc e.1
  let p := (acc1.plantHeap[e.2]?).getD defaultPlant
  let newId := acc1.plantHeap.length
  let acc2 := { acc1 with plantHeap := acc1.plantHeap ++ [p],
                          plants := (e.1, newId) :: acc1.plants }
  if 0 < p.waterCount then
    { acc2 with plantHeap := acc2.plantHeap.set newId (growPlant p) }
  else acc2

/-- One iteration of the tilled-soil restoring loop (lines 1832-1837). -/
def restoreTilled (acc : GameState) (k : TileKey) : GameState :=
  if k ∈ acc.tilledSoil then acc else tillSoil acc k

/-- Lines 1791-1838, `loadSaveGame`: clear the plant and soil maps, make
`this.inventory` point at the record's inventory object, then restore
every saved plant and every saved tilled key. -/
def loadSaveGame (s : GameState) (r : SaveRecord) : GameState :=
  let s0 := { s with plants := [], tilledSoil := [], invId := r.invId }
  let s1 := r.plants.foldl restorePlant s0
  r.tilledSoil.foldl restoreTilled s1

/-- The tool switch of `handleClick` (lines 181-201).  `target` is the
obstacle the axe raycast hits, `none` when nothing is in reach. -/
def clickToolAction (s : GameState) (tool : Tool) (k : TileKey) (target : Option Nat) : GameState :=
  match tool with
  | .hoe => tillSoil s k
  | .water => waterPlant s k
  | .axe =>
    match target with
    | none => s
    | some oid => (damageObstacle s oid).2

/-- Lines 148-207, the click dispatcher: if a seed is selected and the
aimed tile is tilled and empty, plant and return; otherwise run the
selected tool's action and then the trailing harvest check of line 204
(whose guard is exactly the guard inside `harvestPlant`). -/
def handleClick (s : GameState) (seedSel : Option CropType) (tool : Tool)
    (k : TileKey) (target : Option Nat) (roll : Fin 3) : GameState :=
  match seedSel with
  | some seed =>
    if k ∈ s.tilledSoil ∧ findPlant s.plants k = none then (plantSeed s k seed).2
    else (harvestPlant (clickToolAction s tool k target) k roll).2
  | none => (harvestPlant (clickToolAction s tool k target) k roll).2

/-- Initial health constants of `createTree` (line 769) and `createRock`
(line 795). -/
def initialHealth : ObstacleKind → Int
  | .tree => 7
  | .rock => 3

/-- The starting inventory: five of each seed type (lines 40-45). -/
def initialInventory : Inventory := ⟨5, 5, 5, 5⟩

/-- The state right after the constructor for a fresh session (empty saves
slot): starting inventory as the single inventory object, no plants, no
tilled soil, and the scattered obstacles of `createObstacles`
(10 trees and 5 rocks; positions are visual, so only the kinds matter). -/
def initState (kinds : List ObstacleKind) : GameState :=
  { plantHeap := []
    invHeap := [initialInventory]
    invId := 0
    plants := []
    tilledSoil := []
    obstacles := kinds.enum.map (fun ik => (ik.1, { kind := ik.2, health := initialHealth ik.2 }))
    savedGames := [] }

/-- Iterated damage against one obstacle id. -/
def damageN (oid : Nat) : Nat → GameState → GameState
  | 0, s => s
  | n + 1, s => damageN oid n (damageObstacle s oid).2

/-- Heap evolution order for plant objects: every object present keeps its
identity, its `waterCount` never decreases, and its `isHarvestable` flag
never falls back to false. -/
def heapLE (h1 h2 : List PlantData) : Prop :=
  ∀ (i : Nat) (p : PlantData), h1[i]? = some p →
    ∃ p' : PlantData, h2[i]? = some p' ∧ p.waterCount ≤ p'.waterCount ∧
      (p.isHarvestable = true → p'.isHarvestable = true)

/-- One externally triggered transition: a click processed by the
dispatcher, a save, or a load of an existing save. -/
inductive Step : GameState → GameState → Prop
  | click (s : GameState) (seedSel : Option CropType) (tool : Tool)
      (k : TileKey) (target : Option Nat) (roll : Fin 3) :
      Step s (handleClick s seedSel tool k target roll)
  | save (s : GameState) (name : String) :
      Step s (saveGame s name)
  | load (s : GameState) (name : String) (r : SaveRecord)
      (h : lookupSave s.savedGames name = some r) :
      Step s (loadSaveGame s r)

/-- States reachable in a fresh session. -/
inductive Reachable : GameState → Prop
  | init (kinds : List ObstacleKind) : Reachable (initState kinds)
  | step {s s' : GameState} : Reachable s → Step s s' → Reachable s'

/-- The state invariant maintained by every operation: plant objects carry
a water count in 0..3 with the harvestable flag exactly at 3, inventory
objects never hold a negative count, every planted key is tilled, and
every live obstacle still has positive health. -/
structure Inv (s : GameState) : Prop where
  heapWf : ∀ p ∈ s.plantHeap, p.waterCount ≤ 3 ∧ (p.isHarvestable = true ↔ p.waterCount = 3)
  invNonneg : ∀ inv ∈ s.invHeap, ∀ c, 0 ≤ inv.get c
  plantsTilled : ∀ k id, (k, id) ∈ s.plants → k ∈ s.tilledSoil
  obsHealth : ∀ oid ob, (oid, ob) ∈ s.obstacles → 1 ≤ ob.health

/-! ### Basic lemmas about the inventory and the object heaps -/

theorem Inventory.get_setCount (inv : Inventory) (c c' : CropType) (v : Int) :
    (inv.setCount c v).get c' = if c = c' then v else inv.get c' := by
  cases c <;> cases c' <;> simp [Inventory.setCount, Inventory.get]

@[simp] theorem writeInventory_plantHeap (s : GameState) (inv : Inventory) :
    (writeInventory s inv).plantHeap = s.plantHeap := rfl

@[simp] theorem writeInventory_plants (s : GameState) (inv : Inventory) :
    (writeInventory s inv).plants = s.plants := rfl

@[simp] theorem writeInventory_tilledSoil (s : GameState) (inv : Inventory) :
    (writeInventory s inv).tilledSoil = s.tilledSoil := rfl

@[simp] theorem writeInventory_obstacles (s : GameState) (inv : Inventory) :
    (writeInventory s inv).obstacles = s.obstacles := rfl

@[simp] theorem writeInventory_savedGames (s : GameState) (inv : Inventory) :
    (writeInventory s inv).savedGames = s.savedGames := rfl

@[simp] theorem writeInventory_invId (s : GameState) (inv : Inventory) :
    (writeInventory s inv).invId = s.invId := rfl

theorem get_default_zero (t : CropType) : (Inventory.mk 0 0 0 0).get t = 0 := by
  cases t <;> rfl

theorem invId_lt_of_get_pos (s : GameState) (t : CropType)
    (h : 0 < (liveInventory s).get t) : s.invId < s.invHeap.length := by
  by_contra hlt
  have hn : s.invHeap[s.invId]? = none := List.getElem?_eq_none (by omega)
  rw [liveInventory, hn] at h
  rw [Option.getD_none, get_default_zero] at h
  exact lt_irrefl 0 h

theorem liveInventory_write (s : GameState) (inv : Inventory)
    (h : s.invId < s.invHeap.length) :
    liveInventory (writeInventory s inv) = inv := by
  unfold liveInventory writeInventory
  simp [List.getElem?_set_self h]

theorem liveInventory_mem (s : GameState) (h : s.invId < s.invHeap.length) :
    liveInventory s ∈ s.invHeap := by
  unfold liveInventory
  rw [List.getElem?_eq_getElem h]
  exact List.getElem_mem h

theorem findPlant_cons_self (ps : List (TileKey × Nat)) (k : TileKey) (id : Nat) :
    findPlant ((k, id) :: ps) k = some id := by
  unfold findPlant
  rw [if_pos rfl]

theorem findPlant_cons_ne (ps : List (TileKey × Nat)) (k k' : TileKey) (id : Nat)
    (h : k ≠ k') : findPlant ((k, id) :: ps) k' = findPlant ps k' := by
  simp [findPlant, h]

/-! ### Branch lemmas for the planting operation -/

theorem plantSeed_already (s : GameState) (k : TileKey) (t : CropType)
    (h : (findPlant s.plants k).isSome) :
    plantSeed s k t = (Except.error PlantError.AlreadyPlanted, s) := by
  unfold plantSeed
  rw [if_pos h]

theorem plantSeed_insufficient (s : GameState) (k : TileKey) (t : CropType)
    (h1 : findPlant s.plants k = none) (h2 : (liveInventory s).get t ≤ 0) :
    plantSeed s k t = (Except.error PlantError.InsufficientSeed, s) := by
  unfold plantSeed
  rw [h1]
  simp only [Option.isSome_none, Bool.false_eq_true, if_false]
  rw [if_pos h2]

theorem plantSeed_success (s : GameState) (k : TileKey) (t : CropType)
    (h1 : findPlant s.plants k = none) (h2 : 1 ≤ (liveInventory s).get t) :
    plantSeed s k t =
      (Except.ok (),
        writeInventory
          { s with plantHeap := s.plantHeap ++ [⟨t, 0, 0, false⟩],
                   plants := (k, s.plantHeap.length) :: s.plants }
          ((liveInventory s).setCount t ((liveInventory s).get t - 1))) := by
  unfold plantSeed
  rw [h1]
  simp only [Option.isSome_none, Bool.false_eq_true, if_false]
  rw [if_neg (by omega)]

/-- C1.  The save/load round trip does not restore save-time values: the
stored record's `inventory` field is a reference to the live inventory
object (line 1688 stores `this.inventory` itself and line 1799 installs it
back), so a mutation made after the save shows through the record.  In the
scenario below, corn is 5 when "x" is saved, planting then debits it to 4,
and loading "x" yields corn = 4 instead of the saved-time 5 the claim
requires. -/
theorem garden_C1 :
    (liveInventory (tillSoil (initState []) (0, 0))).get CropType.corn = 5 ∧
    lookupSave ((plantSeedAction (saveGame (tillSoil (initState []) (0, 0)) "x")
        (0, 0) CropType.corn).2).savedGames "x" = some ⟨0, [], [(0, 0)]⟩ ∧
    (liveInventory ((plantSeedAction (saveGame (tillSoil (initState []) (0, 0)) "x")
        (0, 0) CropType.corn).2)).get CropType.corn = 4 ∧
    (liveInventory (loadSaveGame
        ((plantSeedAction (saveGame (tillSoil (initState []) (0, 0)) "x")
          (0, 0) CropType.corn).2) ⟨0, [], [(0, 0)]⟩)).get CropType.corn = 4 := by
  decide

/-- C2.  Planting on an untilled tile fails with `NotTilled`: the guard of
`handleClick` line 176 never reaches the `plantSeed` method, so the whole
state — in particular the inventory ledger and the plant at the key — is
unchanged. -/
theorem garden_C2 (s : GameState) (k : TileKey) (t : CropType)
    (h : k ∉ s.tilledSoil) :
    plantSeedAction s k t = (Except.error PlantError.NotTilled, s) ∧
    liveInventory (plantSeedAction s k t).2 = liveInventory s ∧
    plantAt (plantSeedAction s k t).2 k = plantAt s k := by
  have he : plantSeedAction s k t = (Except.error PlantError.NotTilled, s) := by
    unfold plantSeedAction
    rw [if_neg h]
  exact ⟨he, by rw [he], by rw [he]⟩

/-- Witness for C2 at the fresh state and key (0,0). -/
theorem garden_C2_witness :
    plantSeedAction (initState []) (0, 0) CropType.corn
      = (Except.error PlantError.NotTilled, initState []) ∧
    liveInventory (plantSeedAction (initState []) (0, 0) CropType.corn).2
      = liveInventory (initState []) ∧
    plantAt (plantSeedAction (initState []) (0, 0) CropType.corn).2 (0, 0)
      = plantAt (initState []) (0, 0) :=
  garden_C2 (initState []) (0, 0) CropType.corn (by decide)

/-- C3.  Planting on a tilled tile: with a plant already present it fails
with `AlreadyPlanted` and changes nothing; with seed count 0 it fails with
`InsufficientSeed` and changes nothing; with seed count at least 1 it
succeeds, creates exactly one plant at the key with `waterCount = 0` and
`isHarvestable = false`, and debits exactly 1 from that seed type. -/
theorem garden_C3 (s : GameState) (k : TileKey) (t : CropType)
    (htill : k ∈ s.tilledSoil) :
    (∀ id, findPlant s.plants k = some id →
        plantSeedAction s k t = (Except.error PlantError.AlreadyPlanted, s)) ∧
    (findPlant s.plants k = none → (liveInventory s).get t = 0 →
        plantSeedAction s k t = (Except.error PlantError.InsufficientSeed, s)) ∧
    (findPlant s.plants k = none → 1 ≤ (liveInventory s).get t →
        (plantSeedAction s k t).1 = Except.ok () ∧
        plantAt (plantSeedAction s k t).2 k = some ⟨t, 0, 0, false⟩ ∧
        (liveInventory (plantSeedAction s k t).2).get t = (liveInventory s).get t - 1 ∧
        (∀ c, c ≠ t → (liveInventory (plantSeedAction s k t).2).get c = (liveInventory s).get c) ∧
        (∀ k', k' ≠ k → findPlant (plantSeedAction s k t).2.plants k' = findPlant s.plants k')) := by
  have hact : plantSeedAction s k t = plantSeed s k t := by
    unfold plantSeedAction
    rw [if_pos htill]
  refine ⟨?_, ?_, ?_⟩
  · intro id hid
    rw [hact, plantSeed_already s k t (by rw [hid]; rfl)]
  · intro hnone hzero
    rw [hact, plantSeed_insufficient s k t hnone (by omega)]
  · intro hnone hone
    have hlt : s.invId < s.invHeap.length := invId_lt_of_get_pos s t (by omega)
    rw [hact, plantSeed_success s k t hnone hone]
    dsimp only
    refine ⟨rfl, ?_, ?_, ?_, ?_⟩
    · unfold plantAt
      simp only [writeInventory_plants, writeInventory_plantHeap, findPlant_cons_self]
      simp [List.getElem?_concat_length]
    · rw [liveInventory_write, Inventory.get_setCount, if_pos rfl]
      exact hlt
    · intro c hc
      rw [liveInventory_write, Inventory.get_setCount, if_neg (fun hh => hc hh.symm)]
      exact hlt
    · intro k' hk
      simp only [writeInventory_plants]
      exact findPlant_cons_ne _ _ _ _ (fun hh => hk hh.symm)

/-- Witness for C3: a tilled empty tile in a fresh session, then the three
cases evaluated where their hypotheses hold. -/
theorem garden_C3_witness :
    (plantSeedAction (tillSoil (initState []) (0, 0)) (0, 0) CropType.corn).1
      = Except.ok () ∧
    plantAt (plantSeedAction (tillSoil (initState []) (0, 0)) (0, 0) CropType.corn).2 (0, 0)
      = some ⟨CropType.corn, 0, 0, false⟩ ∧
    (liveInventory (plantSeedAction (tillSoil (initState []) (0, 0)) (0, 0) CropType.corn).2).get CropType.corn
      = (liveInventory (tillSoil (initState []) (0, 0))).get CropType.corn - 1 := by
  have h := (garden_C3 (tillSoil (initState []) (0, 0)) (0, 0) CropType.corn (by decide)).2.2
    (by decide) (by decide)
  exact ⟨h.1, h.2.1, h.2.2.1⟩

/-! ### Branch lemmas for watering -/

theorem plantAt_eq_of (s : GameState) (k : TileKey) (id : Nat) (p : PlantData)
    (hf : findPlant s.plants k = some id) (hp : s.plantHeap[id]? = some p) :
    plantAt s k = some p := by
  unfold plantAt
  rw [hf]
  dsimp only
  rw [hp]
  rfl

theorem waterPlant_eq (s : GameState) (k : TileKey) (id : Nat) (p : PlantData)
    (hf : findPlant s.plants k = some id) (hp : s.plantHeap[id]? = some p)
    (hw : p.waterCount < 3) (hh : p.isHarvestable = false) :
    waterPlant s k =
      { s with plantHeap :=
          s.plantHeap.set id (growPlant { p with waterCount := p.waterCount + 1 }) } := by
  unfold waterPlant
  rw [hf]
  dsimp only
  rw [hp]
  dsimp only
  rw [if_neg]
  rintro (h3 | hb)
  · omega
  · rw [hh] at hb
    exact Bool.false_ne_true hb

theorem waterPlant_noop (s : GameState) (k : TileKey) (id : Nat) (p : PlantData)
    (hf : findPlant s.plants k = some id) (hp : s.plantHeap[id]? = some p)
    (h3 : 3 ≤ p.waterCount ∨ p.isHarvestable = true) :
    waterPlant s k = s := by
  unfold waterPlant
  rw [hf]
  dsimp only
  rw [hp]
  dsimp only
  rw [if_pos]
  exact h3

/-- C4.  Watering a freshly planted crop: the first three calls raise
`waterCount` to 1, 2, 3, with `isHarvestable` turning true exactly on the
third call, and a fourth call is a no-op that leaves the state (hence the
stage) unchanged. -/
theorem garden_C4 (s : GameState) (k : TileKey) (id : Nat) (p : PlantData)
    (hf : findPlant s.plants k = some id) (hp : s.plantHeap[id]? = some p)
    (hw : p.waterCount = 0) (hh : p.isHarvestable = false) :
    plantAt (waterPlant s k) k = some { p with waterCount := 1 } ∧
    plantAt (waterPlant (waterPlant s k) k) k = some { p with waterCount := 2 } ∧
    plantAt (waterPlant (waterPlant (waterPlant s k) k) k) k
      = some { p with waterCount := 3, isHarvestable := true } ∧
    waterPlant (waterPlant (waterPlant (waterPlant s k) k) k) k
      = waterPlant (waterPlant (waterPlant s k) k) k := by
  have hlen : id < s.plantHeap.length := (List.getElem?_eq_some_iff.mp hp).1
  have e1 := waterPlant_eq s k id p hf hp (by omega) hh
  have g1 : growPlant { p with waterCount := p.waterCount + 1 } = { p with waterCount := 1 } := by
    simp [growPlant, hw]
  rw [g1] at e1
  have hf1 : findPlant (waterPlant s k).plants k = some id := by rw [e1]; exact hf
  have hp1 : (waterPlant s k).plantHeap[id]? = some { p with waterCount := 1 } := by
    rw [e1]
    exact List.getElem?_set_self hlen
  have hlen1 : id < (waterPlant s k).plantHeap.length := (List.getElem?_eq_some_iff.mp hp1).1
  have e2 := waterPlant_eq _ k id _ hf1 hp1 (by simp) (by simp [hh])
  have g2 : growPlant { p with waterCount := 1 + 1 } = { p with waterCount := 2 } := by
    simp [growPlant]
  simp only [g2] at e2
  have hf2 : findPlant (waterPlant (waterPlant s k) k).plants k = some id := by
    rw [e2]; exact hf1
  have hp2 : (waterPlant (waterPlant s k) k).plantHeap[id]? = some { p with waterCount := 2 } := by
    rw [e2]
    exact List.getElem?_set_self hlen1
  have hlen2 : id < (waterPlant (waterPlant s k) k).plantHeap.length :=
    (List.getElem?_eq_some_iff.mp hp2).1
  have e3 := waterPlant_eq _ k id _ hf2 hp2 (by simp) (by simp [hh])
  have g3 : growPlant { p with waterCount := 2 + 1 } = { p with waterCount := 3, isHarvestable := true } := by
    simp [growPlant]
  simp only [g3] at e3
  have hf3 : findPlant (waterPlant (waterPlant (waterPlant s k) k) k).plants k = some id := by
    rw [e3]; exact hf2
  have hp3 : (waterPlant (waterPlant (waterPlant s k) k) k).plantHeap[id]?
      = some { p with waterCount := 3, isHarvestable := true } := by
    rw [e3]
    exact List.getElem?_set_self hlen2
  refine ⟨plantAt_eq_of _ _ _ _ hf1 hp1, plantAt_eq_of _ _ _ _ hf2 hp2,
    plantAt_eq_of _ _ _ _ hf3 hp3, ?_⟩
  exact waterPlant_noop _ k id _ hf3 hp3 (Or.inl (by simp))

/-- Witness for C4: the plant created at (0,0) in a fresh session. -/
theorem garden_C4_witness :
    plantAt (waterPlant ((plantSeedAction (tillSoil (initState []) (0, 0)) (0, 0) CropType.corn).2) (0, 0)) (0, 0)
      = some ⟨CropType.corn, 0, 1, false⟩ ∧
    plantAt (waterPlant (waterPlant ((plantSeedAction (tillSoil (initState []) (0, 0)) (0, 0) CropType.corn).2) (0, 0)) (0, 0)) (0, 0)
      = some ⟨CropType.corn, 0, 2, false⟩ ∧
    plantAt (waterPlant (waterPlant (waterPlant ((plantSeedAction (tillSoil (initState []) (0, 0)) (0, 0) CropType.corn).2) (0, 0)) (0, 0)) (0, 0)) (0, 0)
      = some ⟨CropType.corn, 0, 3, true⟩ ∧
    waterPlant (waterPlant (waterPlant (waterPlant ((plantSeedAction (tillSoil (initState []) (0, 0)) (0, 0) CropType.corn).2) (0, 0)) (0, 0)) (0, 0)) (0, 0)
      = waterPlant (waterPlant (waterPlant ((plantSeedAction (tillSoil (initState []) (0, 0)) (0, 0) CropType.corn).2) (0, 0)) (0, 0)) (0, 0) :=
  garden_C4 ((plantSeedAction (tillSoil (initState []) (0, 0)) (0, 0) CropType.corn).2)
    (0, 0) 0 ⟨CropType.corn, 0, 0, false⟩ (by decide) (by decide) rfl rfl

/-! ### Branch lemmas for harvesting -/

theorem findPlant_removePlant : ∀ (ps : List (TileKey × Nat)) (k : TileKey),
    findPlant (removePlant ps k) k = none
  | [], _ => rfl
  | (k', id) :: rest, k => by
    by_cases h : k' = k
    · have hr : removePlant ((k', id) :: rest) k = removePlant rest k := by
        simp [removePlant, List.filter_cons, h]
      rw [hr]
      exact findPlant_removePlant rest k
    · have hr : removePlant ((k', id) :: rest) k = (k', id) :: removePlant rest k := by
        simp [removePlant, List.filter_cons, h]
      rw [hr, findPlant_cons_ne _ _ _ _ h]
      exact findPlant_removePlant rest k

theorem not_mem_removeTilled (ts : List TileKey) (k : TileKey) :
    k ∉ removeTilled ts k := by
  simp [removeTilled, List.mem_filter]

theorem harvestPlant_noPlant (s : GameState) (k : TileKey) (roll : Fin 3)
    (hf : findPlant s.plants k = none) :
    harvestPlant s k roll = (Except.error HarvestError.NoPlant, s) := by
  unfold harvestPlant
  rw [hf]

theorem harvestPlant_notReady (s : GameState) (k : TileKey) (roll : Fin 3)
    (id : Nat) (p : PlantData)
    (hf : findPlant s.plants k = some id) (hp : s.plantHeap[id]? = some p)
    (hh : p.isHarvestable = false) :
    harvestPlant s k roll = (Except.error HarvestError.NotReady, s) := by
  unfold harvestPlant
  rw [hf]
  dsimp only
  rw [hp, Option.getD_some]
  rw [if_neg]
  rw [hh]
  exact Bool.false_ne_true

theorem harvestPlant_success (s : GameState) (k : TileKey) (roll : Fin 3)
    (id : Nat) (p : PlantData)
    (hf : findPlant s.plants k = some id) (hp : s.plantHeap[id]? = some p)
    (hh : p.isHarvestable = true) :
    (harvestPlant s k roll).1 = Except.ok (roll.val + 1) ∧
    (harvestPlant s k roll).2.plants = removePlant s.plants k ∧
    (harvestPlant s k roll).2.tilledSoil = removeTilled s.tilledSoil k ∧
    (harvestPlant s k roll).2.plantHeap = s.plantHeap ∧
    (harvestPlant s k roll).2.obstacles = s.obstacles ∧
    (harvestPlant s k roll).2.savedGames = s.savedGames ∧
    (harvestPlant s k roll).2.invId = s.invId ∧
    (harvestPlant s k roll).2.invHeap
      = s.invHeap.set s.invId
          ((liveInventory s).setCount p.type ((liveInventory s).get p.type + (roll.val + 1))) := by
  unfold harvestPlant
  rw [hf]
  dsimp only
  rw [hp, Option.getD_some]
  rw [if_pos hh]
  exact ⟨rfl, rfl, rfl, rfl, rfl, rfl, rfl, rfl⟩

/-- C5.  Harvesting: without a plant it fails with `NoPlant`, with an
unharvestable plant it fails with `NotReady`, both leaving the state
untouched; with a harvestable plant it credits that plant's crop type by
`roll + 1`, an amount in 1..3, and removes both the plant and the tilled
marker at the key.  `hinv` records that `this.inventory` refers to an
actual object, which holds in every reachable state. -/
theorem garden_C5 (s : GameState) (k : TileKey) (roll : Fin 3)
    (hinv : s.invId < s.invHeap.length) :
    (findPlant s.plants k = none →
        harvestPlant s k roll = (Except.error HarvestError.NoPlant, s)) ∧
    (∀ id p, findPlant s.plants k = some id → s.plantHeap[id]? = some p →
        p.isHarvestable = false →
        harvestPlant s k roll = (Except.error HarvestError.NotReady, s)) ∧
    (∀ id p, findPlant s.plants k = some id → s.plantHeap[id]? = some p →
        p.isHarvestable = true →
        (harvestPlant s k roll).1 = Except.ok (roll.val + 1) ∧
        1 ≤ roll.val + 1 ∧ roll.val + 1 ≤ 3 ∧
        (liveInventory (harvestPlant s k roll).2).get p.type
          = (liveInventory s).get p.type + (roll.val + 1) ∧
        findPlant (harvestPlant s k roll).2.plants k = none ∧
        k ∉ (harvestPlant s k roll).2.tilledSoil) := by
  refine ⟨fun hf => harvestPlant_noPlant s k roll hf,
    fun id p hf hp hh => harvestPlant_notReady s k roll id p hf hp hh,
    fun id p hf hp hh => ?_⟩
  obtain ⟨h1, hpl, hts, _, _, _, hid, hih⟩ := harvestPlant_success s k roll id p hf hp hh
  refine ⟨h1, by omega, by omega, ?_, ?_, ?_⟩
  · rw [liveInventory, hid, hih, List.getElem?_set_self hinv, Option.getD_some,
      Inventory.get_setCount, if_pos rfl]
  · rw [hpl]
    exact findPlant_removePlant s.plants k
  · rw [hts]
    exact not_mem_removeTilled s.tilledSoil k

/-- Witness for C5: harvesting the fully watered corn plant at (0,0) with
the maximal roll credits 3 corn. -/
theorem garden_C5_witness :
    (harvestPlant (waterPlant (waterPlant (waterPlant
        ((plantSeedAction (tillSoil (initState []) (0, 0)) (0, 0) CropType.corn).2)
        (0, 0)) (0, 0)) (0, 0)) (0, 0) 2).1 = Except.ok 3 ∧
    findPlant (harvestPlant (waterPlant (waterPlant (waterPlant
        ((plantSeedAction (tillSoil (initState []) (0, 0)) (0, 0) CropType.corn).2)
        (0, 0)) (0, 0)) (0, 0)) (0, 0) 2).2.plants (0, 0) = none ∧
    (0, 0) ∉ (harvestPlant (waterPlant (waterPlant (waterPlant
        ((plantSeedAction (tillSoil (initState []) (0, 0)) (0, 0) CropType.corn).2)
        (0, 0)) (0, 0)) (0, 0)) (0, 0) 2).2.tilledSoil := by
  have h := (garden_C5 (waterPlant (waterPlant (waterPlant
      ((plantSeedAction (tillSoil (initState []) (0, 0)) (0, 0) CropType.corn).2)
      (0, 0)) (0, 0)) (0, 0)) (0, 0) 2 (by decide)).2.2
    0 ⟨CropType.corn, 0, 3, true⟩ (by decide) (by decide) rfl
  exact ⟨h.1, h.2.2.2.2.1, h.2.2.2.2.2⟩

/-! ### Lemmas about the obstacle list -/

theorem findObstacle_none_of_not_mem (l : List (Nat × Obstacle)) (oid : Nat)
    (h : oid ∉ l.map Prod.fst) : findObstacle l oid = none := by
  induction l with
  | nil => rfl
  | cons e rest ih =>
    obtain ⟨i, ob⟩ := e
    rw [List.map_cons, List.mem_cons] at h
    push_neg at h
    rw [show findObstacle ((i, ob) :: rest) oid
        = if i = oid then some ob else findObstacle rest oid from rfl]
    rw [if_neg (fun he => h.1 he.symm)]
    exact ih h.2

theorem findObstacle_updateObstacle_self (l : List (Nat × Obstacle)) (oid : Nat)
    (ob newOb : Obstacle) (h : findObstacle l oid = some ob) :
    findObstacle (updateObstacle l oid newOb) oid = some newOb := by
  induction l with
  | nil => exact absurd h (by rw [show findObstacle [] oid = none from rfl]; exact Option.noConfusion)
  | cons e rest ih =>
    obtain ⟨i, ob'⟩ := e
    by_cases hi : i = oid
    · rw [show updateObstacle ((i, ob') :: rest) oid newOb
          = if i = oid then (i, newOb) :: rest else (i, ob') :: updateObstacle rest oid newOb from rfl,
        if_pos hi]
      rw [show findObstacle ((i, newOb) :: rest) oid
          = if i = oid then some newOb else findObstacle rest oid from rfl, if_pos hi]
    · rw [show findObstacle ((i, ob') :: rest) oid
          = if i = oid then some ob' else findObstacle rest oid from rfl, if_neg hi] at h
      rw [show updateObstacle ((i, ob') :: rest) oid newOb
          = if i = oid then (i, newOb) :: rest else (i, ob') :: updateObstacle rest oid newOb from rfl,
        if_neg hi]
      rw [show findObstacle ((i, ob') :: updateObstacle rest oid newOb) oid
          = if i = oid then some ob' else findObstacle (updateObstacle rest oid newOb) oid from rfl,
        if_neg hi]
      exact ih h

theorem map_fst_updateObstacle (l : List (Nat × Obstacle)) (oid : Nat) (newOb : Obstacle) :
    (updateObstacle l oid newOb).map Prod.fst = l.map Prod.fst := by
  induction l with
  | nil => rfl
  | cons e rest ih =>
    obtain ⟨i, ob⟩ := e
    by_cases hi : i = oid
    · simp [updateObstacle, hi]
    · simp [updateObstacle, hi, ih]

theorem removeObstacle_sublist (l : List (Nat × Obstacle)) (oid : Nat) :
    (removeObstacle l oid).Sublist l := by
  induction l with
  | nil => exact List.Sublist.refl []
  | cons e rest ih =>
    obtain ⟨i, ob⟩ := e
    by_cases hi : i = oid
    · rw [show removeObstacle ((i, ob) :: rest) oid
          = if i = oid then rest else (i, ob) :: removeObstacle rest oid from rfl, if_pos hi]
      exact List.sublist_cons_self (i, ob) rest
    · rw [show removeObstacle ((i, ob) :: rest) oid
          = if i = oid then rest else (i, ob) :: removeObstacle rest oid from rfl, if_neg hi]
      exact ih.cons₂ (i, ob)

theorem findObstacle_removeObstacle_self (l : List (Nat × Obstacle)) (oid : Nat)
    (hnd : (l.map Prod.fst).Nodup) :
    findObstacle (removeObstacle l oid) oid = none := by
  induction l with
  | nil => rfl
  | cons e rest ih =>
    obtain ⟨i, ob⟩ := e
    rw [List.map_cons, List.nodup_cons] at hnd
    by_cases hi : i = oid
    · rw [show removeObstacle ((i, ob) :: rest) oid
          = if i = oid then rest else (i, ob) :: removeObstacle rest oid from rfl, if_pos hi]
      exact findObstacle_none_of_not_mem rest oid (hi ▸ hnd.1)
    · rw [show removeObstacle ((i, ob) :: rest) oid
          = if i = oid then rest else (i, ob) :: removeObstacle rest oid from rfl, if_neg hi]
      rw [show findObstacle ((i, ob) :: removeObstacle rest oid) oid
          = if i = oid then some ob else findObstacle (removeObstacle rest oid) oid from rfl,
        if_neg hi]
      exact ih hnd.2

/-! ### Branch lemmas for obstacle damage -/

theorem damageObstacle_notFound (s : GameState) (oid : Nat)
    (h : findObstacle s.obstacles oid = none) :
    damageObstacle s oid = (Except.error DamageError.NotFound, s) := by
  unfold damageObstacle
  rw [h]

theorem damageObstacle_destroy (s : GameState) (oid : Nat) (ob : Obstacle)
    (h : findObstacle s.obstacles oid = some ob) (hle : ob.health - 1 ≤ 0) :
    damageObstacle s oid
      = (Except.ok true, { s with obstacles := removeObstacle s.obstacles oid }) := by
  unfold damageObstacle
  rw [h]
  dsimp only
  rw [if_pos hle]

theorem damageObstacle_hit (s : GameState) (oid : Nat) (ob : Obstacle)
    (h : findObstacle s.obstacles oid = some ob) (hgt : ¬ob.health - 1 ≤ 0) :
    damageObstacle s oid
      = (Except.ok false,
          { s with obstacles := updateObstacle s.obstacles oid { ob with health := ob.health - 1 } }) := by
  unfold damageObstacle
  rw [h]
  dsimp only
  rw [if_neg hgt]

theorem damageN_succ (oid : Nat) : ∀ (n : Nat) (s : GameState),
    damageN oid (n + 1) s = (damageObstacle (damageN oid n s) oid).2
  | 0, _ => rfl
  | n + 1, s => damageN_succ oid n (damageObstacle s oid).2

/-- Running `n < health` damage calls: the obstacle is still live with its
health decreased by exactly `n`, and id distinctness is preserved. -/
theorem damageN_run (oid : Nat) : ∀ (n : Nat) (s : GameState) (ob : Obstacle),
    (s.obstacles.map Prod.fst).Nodup →
    findObstacle s.obstacles oid = some ob →
    (n : Int) < ob.health →
    findObstacle (damageN oid n s).obstacles oid = some ⟨ob.kind, ob.health - n⟩ ∧
    ((damageN oid n s).obstacles.map Prod.fst).Nodup
  | 0, s, ob, hnd, hf, _ => by
    refine ⟨?_, hnd⟩
    rw [show damageN oid 0 s = s from rfl, hf]
    cases ob
    simp
  | n + 1, s, ob, hnd, hf, hlt => by
    have hgt : ¬ob.health - 1 ≤ 0 := by
      push_cast at hlt
      omega
    have e := damageObstacle_hit s oid ob hf hgt
    rw [show damageN oid (n + 1) s = damageN oid n (damageObstacle s oid).2 from rfl, e]
    have hf' : findObstacle
        (updateObstacle s.obstacles oid { ob with health := ob.health - 1 }) oid
        = some { ob with health := ob.health - 1 } :=
      findObstacle_updateObstacle_self s.obstacles oid ob _ hf
    have hnd' : ((updateObstacle s.obstacles oid
        { ob with health := ob.health - 1 }).map Prod.fst).Nodup := by
      rw [map_fst_updateObstacle]
      exact hnd
    have hlt' : (n : Int) < ({ ob with health := ob.health - 1 } : Obstacle).health := by
      dsimp only
      push_cast at hlt
      omega
    have ih := damageN_run oid n
      { s with obstacles := updateObstacle s.obstacles oid { ob with health := ob.health - 1 } }
      { ob with health := ob.health - 1 } hnd' hf' hlt'
    refine ⟨?_, ih.2⟩
    rw [ih.1]
    have harith : ob.health - 1 - (n : Int) = ob.health - ((n : Nat) + 1 : Nat) := by
      push_cast
      ring
    rw [show ({ ob with health := ob.health - 1 } : Obstacle).kind = ob.kind from rfl,
      show ({ ob with health := ob.health - 1 } : Obstacle).health = ob.health - 1 from rfl,
      harith]

/-- After exactly `health` damage calls the obstacle is gone from the live
set (and id distinctness still holds). -/
theorem damageN_destroys (oid : Nat) (s : GameState) (ob : Obstacle) (hn : Nat)
    (hnd : (s.obstacles.map Prod.fst).Nodup)
    (hf : findObstacle s.obstacles oid = some ob)
    (hh : ob.health = (hn : Int)) (hpos : 0 < hn) :
    findObstacle (damageN oid hn s).obstacles oid = none ∧
    ((damageN oid hn s).obstacles.map Prod.fst).Nodup := by
  obtain ⟨m, rfl⟩ : ∃ m, hn = m + 1 := ⟨hn - 1, by omega⟩
  have hrun := damageN_run oid m s ob hnd hf (by rw [hh]; push_cast; omega)
  have hle : (⟨ob.kind, ob.health - (m : Int)⟩ : Obstacle).health - 1 ≤ 0 := by
    dsimp only
    rw [hh]
    push_cast
    omega
  have e := damageObstacle_destroy (damageN oid m s) oid _ hrun.1 hle
  rw [damageN_succ oid m s, e]
  constructor
  · exact findObstacle_removeObstacle_self _ oid hrun.2
  · exact ((removeObstacle_sublist _ oid).map Prod.fst).nodup hrun.2

/-- C6.  An obstacle starting at its creation health (7 for a tree, 3 for a
rock) survives every prefix of fewer damage calls, losing exactly one
health per call, with the call reporting destruction exactly when it is the
last one; after exactly that many calls it is out of the live set and a
further damage call fails with `NotFound`.  `hnd` states that live
obstacles are distinct objects, which holds in every reachable state. -/
theorem garden_C6 (s : GameState) (oid : Nat) (ob : Obstacle)
    (hnd : (s.obstacles.map Prod.fst).Nodup)
    (hf : findObstacle s.obstacles oid = some ob)
    (hinit : ob.health = initialHealth ob.kind) :
    (∀ n : Nat, (n : Int) < initialHealth ob.kind →
        findObstacle (damageN oid n s).obstacles oid
          = some ⟨ob.kind, initialHealth ob.kind - n⟩ ∧
        (damageObstacle (damageN oid n s) oid).1
          = Except.ok (decide (initialHealth ob.kind ≤ (n : Int) + 1))) ∧
    findObstacle (damageN oid (initialHealth ob.kind).toNat s).obstacles oid = none ∧
    (damageObstacle (damageN oid (initialHealth ob.kind).toNat s) oid).1
      = Except.error DamageError.NotFound := by
  have hcast : ((initialHealth ob.kind).toNat : Int) = initialHealth ob.kind := by
    cases ob.kind <;> rfl
  have hpos : 0 < (initialHealth ob.kind).toNat := by
    cases ob.kind <;> decide
  refine ⟨?_, ?_⟩
  · intro n hlt
    have hrun := damageN_run oid n s ob hnd hf (by omega)
    refine ⟨by rw [hrun.1, hinit], ?_⟩
    by_cases hc : initialHealth ob.kind ≤ (n : Int) + 1
    · have e := damageObstacle_destroy (damageN oid n s) oid _ hrun.1 (by dsimp only; omega)
      rw [e, decide_eq_true hc]
    · have e := damageObstacle_hit (damageN oid n s) oid _ hrun.1 (by dsimp only; omega)
      rw [e, decide_eq_false hc]
  · have hdes := damageN_destroys oid s ob (initialHealth ob.kind).toNat hnd hf
      (by omega) hpos
    refine ⟨hdes.1, ?_⟩
    rw [damageObstacle_notFound _ oid hdes.1]

/-- Witness for C6: the single tree of a one-obstacle world, hit 6 times,
then the 7th, then once more. -/
theorem garden_C6_witness :
    findObstacle (damageN 0 6 (initState [ObstacleKind.tree])).obstacles 0
      = some ⟨ObstacleKind.tree, 1⟩ ∧
    findObstacle (damageN 0 7 (initState [ObstacleKind.tree])).obstacles 0 = none ∧
    (damageObstacle (damageN 0 7 (initState [ObstacleKind.tree])) 0).1
      = Except.error DamageError.NotFound := by
  have h := garden_C6 (initState [ObstacleKind.tree]) 0 ⟨ObstacleKind.tree, 7⟩
    (by decide) (by decide) (by decide)
  have h6 := (h.1 6 (by decide)).1
  exact ⟨by rw [h6]; decide, h.2.1, h.2.2⟩

/-! ### Structural facts used by the invariant proofs -/

@[simp] theorem tillSoil_plantHeap (s : GameState) (k : TileKey) :
    (tillSoil s k).plantHeap = s.plantHeap := by
  unfold tillSoil
  split <;> rfl

@[simp] theorem tillSoil_invHeap (s : GameState) (k : TileKey) :
    (tillSoil s k).invHeap = s.invHeap := by
  unfold tillSoil
  split <;> rfl

@[simp] theorem tillSoil_invId (s : GameState) (k : TileKey) :
    (tillSoil s k).invId = s.invId := by
  unfold tillSoil
  split <;> rfl

@[simp] theorem tillSoil_plants (s : GameState) (k : TileKey) :
    (tillSoil s k).plants = s.plants := by
  unfold tillSoil
  split <;> rfl

@[simp] theorem tillSoil_obstacles (s : GameState) (k : TileKey) :
    (tillSoil s k).obstacles = s.obstacles := by
  unfold tillSoil
  split <;> rfl

@[simp] theorem tillSoil_savedGames (s : GameState) (k : TileKey) :
    (tillSoil s k).savedGames = s.savedGames := by
  unfold tillSoil
  split <;> rfl

theorem mem_tillSoil_self (s : GameState) (k : TileKey) :
    k ∈ (tillSoil s k).tilledSoil := by
  unfold tillSoil
  split
  · assumption
  · exact List.mem_cons_self k s.tilledSoil

theorem mem_tillSoil_of_mem (s : GameState) (k k' : TileKey)
    (h : k' ∈ s.tilledSoil) : k' ∈ (tillSoil s k).tilledSoil := by
  unfold tillSoil
  split
  · exact h
  · exact List.mem_cons_of_mem k h

theorem growPlant_waterCount (p : PlantData) :
    (growPlant p).waterCount = p.waterCount := by
  unfold growPlant
  split <;> rfl

theorem growPlant_type (p : PlantData) : (growPlant p).type = p.type := by
  unfold growPlant
  split <;> rfl

theorem growPlant_wf (p : PlantData)
    (h : p.waterCount ≤ 3 ∧ (p.isHarvestable = true ↔ p.waterCount = 3)) :
    (growPlant p).waterCount ≤ 3 ∧
      ((growPlant p).isHarvestable = true ↔ (growPlant p).waterCount = 3) := by
  unfold growPlant
  split
  · rename_i h3
    refine ⟨?_, ?_⟩ <;> dsimp only
    · omega
    · simp [h3]
  · exact h

theorem mem_updateObstacle (l : List (Nat × Obstacle)) (oid : Nat) (newOb : Obstacle) :
    ∀ x ∈ updateObstacle l oid newOb, x ∈ l ∨ x.2 = newOb := by
  induction l with
  | nil => intro x hx; exact absurd hx (List.not_mem_nil x)
  | cons e rest ih =>
    obtain ⟨i, ob⟩ := e
    intro x hx
    by_cases hi : i = oid
    · rw [show updateObstacle ((i, ob) :: rest) oid newOb
          = if i = oid then (i, newOb) :: rest else (i, ob) :: updateObstacle rest oid newOb from rfl,
        if_pos hi] at hx
      rcases List.mem_cons.mp hx with he | hm
      · right
        rw [he]
      · left
        exact List.mem_cons_of_mem _ hm
    · rw [show updateObstacle ((i, ob) :: rest) oid newOb
          = if i = oid then (i, newOb) :: rest else (i, ob) :: updateObstacle rest oid newOb from rfl,
        if_neg hi] at hx
      rcases List.mem_cons.mp hx with he | hm
      · left
        rw [he]
        exact List.mem_cons_self _ rest
      · rcases ih x hm with hl | hr
        · left
          exact List.mem_cons_of_mem _ hl
        · right
          exact hr

/-! ### Preservation of the invariant by every operation -/

theorem getElem_opt_mem {α : Type} (l : List α) (i : Nat) (a : α)
    (h : l[i]? = some a) : a ∈ l := by
  obtain ⟨hlt, he⟩ := List.getElem?_eq_some_iff.mp h
  rw [← he]
  exact List.getElem_mem hlt

theorem liveInventory_nonneg (s : GameState) (h : Inv s) (c : CropType) :
    0 ≤ (liveInventory s).get c := by
  unfold liveInventory
  cases hq : s.invHeap[s.invId]? with
  | none =>
    rw [Option.getD_none, get_default_zero]
  | some inv =>
    rw [Option.getD_some]
    exact h.invNonneg inv (getElem_opt_mem _ _ _ hq) c

theorem inv_tillSoil (s : GameState) (k : TileKey) (h : Inv s) : Inv (tillSoil s k) := by
  unfold tillSoil
  split
  · exact h
  · refine ⟨h.heapWf, h.invNonneg, ?_, h.obsHealth⟩
    intro k' id hmem
    exact List.mem_cons_of_mem _ (h.plantsTilled k' id hmem)

theorem inv_writeInventory (s : GameState) (inv : Inventory) (h : Inv s)
    (hnn : ∀ c, 0 ≤ inv.get c) : Inv (writeInventory s inv) := by
  refine ⟨h.heapWf, ?_, h.plantsTilled, h.obsHealth⟩
  intro inv' hmem c
  rcases List.mem_or_eq_of_mem_set hmem with hm | he
  · exact h.invNonneg inv' hm c
  · rw [he]
    exact hnn c

theorem inv_plantSeed (s : GameState) (k : TileKey) (t : CropType)
    (htill : k ∈ s.tilledSoil) (h : Inv s) : Inv (plantSeed s k t).2 := by
  by_cases hps : (findPlant s.plants k).isSome
  · rw [plantSeed_already s k t hps]
    exact h
  · have hnone : findPlant s.plants k = none := Option.not_isSome_iff_eq_none.mp hps
    by_cases hz : (liveInventory s).get t ≤ 0
    · rw [plantSeed_insufficient s k t hnone hz]
      exact h
    · rw [plantSeed_success s k t hnone (by omega)]
      dsimp only
      refine inv_writeInventory _ _ ⟨?_, h.invNonneg, ?_, h.obsHealth⟩ ?_
      · intro p hp
        rcases List.mem_append.mp hp with hm | hm
        · exact h.heapWf p hm
        · rw [List.mem_singleton] at hm
          rw [hm]
          refine ⟨?_, ?_⟩ <;> dsimp only
          · omega
          · simp
      · intro k' id hmem
        rcases List.mem_cons.mp hmem with he | hm
        · rw [Prod.mk.injEq] at he
          rw [he.1]
          exact htill
        · exact h.plantsTilled k' id hm
      · intro c
        rw [Inventory.get_setCount]
        split
        · omega
        · exact liveInventory_nonneg s h c

theorem inv_plantSeedAction (s : GameState) (k : TileKey) (t : CropType)
    (h : Inv s) : Inv (plantSeedAction s k t).2 := by
  unfold plantSeedAction
  split
  · exact inv_plantSeed s k t (by assumption) h
  · exact h

theorem inv_waterPlant (s : GameState) (k : TileKey) (h : Inv s) :
    Inv (waterPlant s k) := by
  unfold waterPlant
  split
  · exact h
  · split
    · exact h
    · split
      · exact h
      · rename_i id hfind p hget hcond
        refine ⟨?_, h.invNonneg, h.plantsTilled, h.obsHealth⟩
        intro q hq
        rcases List.mem_or_eq_of_mem_set hq with hm | he
        · exact h.heapWf q hm
        · rw [he]
          push_neg at hcond
          obtain ⟨hc1, hc2⟩ := hcond
          unfold growPlant
          dsimp only
          split
          · rename_i h3
            refine ⟨?_, ?_⟩ <;> dsimp only
            · omega
            · simp [h3]
          · rename_i h3
            refine ⟨?_, ?_⟩ <;> dsimp only
            · omega
            · exact ⟨fun hb => absurd hb hc2, fun hw => absurd hw h3⟩

theorem inv_harvestPlant (s : GameState) (k : TileKey) (roll : Fin 3) (h : Inv s) :
    Inv (harvestPlant s k roll).2 := by
  unfold harvestPlant
  split
  · exact h
  · dsimp only
    split
    · rename_i id hfind hharv
      refine ⟨h.heapWf, ?_, ?_, h.obsHealth⟩
      · intro inv' hmem c
        rcases List.mem_or_eq_of_mem_set hmem with hm | he
        · exact h.invNonneg inv' hm c
        · rw [he, Inventory.get_setCount]
          split
          · exact Int.add_nonneg (liveInventory_nonneg s h _) (Int.natCast_nonneg _)
          · exact liveInventory_nonneg s h c
      · intro k' id' hmem
        rw [removePlant, List.mem_filter] at hmem
        have hk : k' ∈ s.tilledSoil := h.plantsTilled k' id' hmem.1
        rw [removeTilled, List.mem_filter]
        exact ⟨hk, hmem.2⟩
    · exact h

theorem inv_damageObstacle (s : GameState) (oid : Nat) (h : Inv s) :
    Inv (damageObstacle s oid).2 := by
  unfold damageObstacle
  split
  · exact h
  · rename_i ob hfind
    dsimp only
    split
    · refine ⟨h.heapWf, h.invNonneg, h.plantsTilled, ?_⟩
      intro oid' ob' hmem
      exact h.obsHealth oid' ob' ((removeObstacle_sublist s.obstacles oid).subset hmem)
    · rename_i hgt
      refine ⟨h.heapWf, h.invNonneg, h.plantsTilled, ?_⟩
      intro oid' ob' hmem
      rcases mem_updateObstacle s.obstacles oid _ (oid', ob') hmem with hm | he
      · exact h.obsHealth oid' ob' hm
      · have : ob' = { ob with health := ob.health - 1 } := he
        rw [this]
        dsimp only
        omega

theorem inv_saveGame (s : GameState) (name : String) (h : Inv s) :
    Inv (saveGame s name) :=
  ⟨h.heapWf, h.invNonneg, h.plantsTilled, h.obsHealth⟩

theorem foldl_preserve {α : Type} (f : GameState → α → GameState) (P : GameState → Prop)
    (hf : ∀ acc e, P acc → P (f acc e)) :
    ∀ (l : List α) (acc : GameState), P acc → P (l.foldl f acc)
  | [], _, h => h
  | e :: rest, acc, h => foldl_preserve f P hf rest (f acc e) (hf acc e h)

theorem inv_restorePlant (acc : GameState) (e : TileKey × Nat) (h : Inv acc) :
    Inv (restorePlant acc e) := by
  unfold restorePlant
  dsimp only
  have h1 : Inv (tillSoil acc e.1) := inv_tillSoil acc e.1 h
  have hpwf : ((tillSoil acc e.1).plantHeap[e.2]?.getD defaultPlant).waterCount ≤ 3 ∧
      (((tillSoil acc e.1).plantHeap[e.2]?.getD defaultPlant).isHarvestable = true ↔
        ((tillSoil acc e.1).plantHeap[e.2]?.getD defaultPlant).waterCount = 3) := by
    cases hq : (tillSoil acc e.1).plantHeap[e.2]? with
    | none =>
      rw [Option.getD_none]
      decide
    | some p =>
      rw [Option.getD_some]
      exact h1.heapWf p (getElem_opt_mem _ _ _ hq)
  have h2 : Inv { tillSoil acc e.1 with
      plantHeap := (tillSoil acc e.1).plantHeap ++
        [(tillSoil acc e.1).plantHeap[e.2]?.getD defaultPlant],
      plants := (e.1, (tillSoil acc e.1).plantHeap.length) :: (tillSoil acc e.1).plants } := by
    refine ⟨?_, h1.invNonneg, ?_, h1.obsHealth⟩
    · intro p hp
      rcases List.mem_append.mp hp with hm | hm
      · exact h1.heapWf p hm
      · rw [List.mem_singleton] at hm
        rw [hm]
        exact hpwf
    · intro k' id hmem
      rcases List.mem_cons.mp hmem with he | hm
      · rw [Prod.mk.injEq] at he
        rw [he.1]
        exact mem_tillSoil_self acc e.1
      · exact h1.plantsTilled k' id hm
  split
  · refine ⟨?_, h2.invNonneg, h2.plantsTilled, h2.obsHealth⟩
    intro q hq
    rcases List.mem_or_eq_of_mem_set hq with hm | he
    · exact h2.heapWf q hm
    · rw [he]
      exact growPlant_wf _ hpwf
  · exact h2

theorem inv_restoreTilled (acc : GameState) (k : TileKey) (h : Inv acc) :
    Inv (restoreTilled acc k) := by
  unfold restoreTilled
  split
  · exact h
  · exact inv_tillSoil acc k h

theorem inv_loadSaveGame (s : GameState) (r : SaveRecord) (h : Inv s) :
    Inv (loadSaveGame s r) := by
  unfold loadSaveGame
  dsimp only
  refine foldl_preserve restoreTilled Inv inv_restoreTilled _ _ ?_
  refine foldl_preserve restorePlant Inv inv_restorePlant _ _ ?_
  refine ⟨h.heapWf, h.invNonneg, ?_, h.obsHealth⟩
  intro k id hmem
  exact absurd hmem (List.not_mem_nil _)

theorem inv_clickToolAction (s : GameState) (tool : Tool) (k : TileKey)
    (target : Option Nat) (h : Inv s) : Inv (clickToolAction s tool k target) := by
  cases tool with
  | axe =>
    cases target with
    | none => exact h
    | some oid => exact inv_damageObstacle s oid h
  | hoe => exact inv_tillSoil s k h
  | water => exact inv_waterPlant s k h

theorem inv_handleClick (s : GameState) (seedSel : Option CropType) (tool : Tool)
    (k : TileKey) (target : Option Nat) (roll : Fin 3) (h : Inv s) :
    Inv (handleClick s seedSel tool k target roll) := by
  unfold handleClick
  cases seedSel with
  | none =>
    dsimp only
    exact inv_harvestPlant _ k roll (inv_clickToolAction s tool k target h)
  | some seed =>
    dsimp only
    split
    · rename_i hcond
      exact inv_plantSeed s k seed hcond.1 h
    · exact inv_harvestPlant _ k roll (inv_clickToolAction s tool k target h)

theorem inv_init (kinds : List ObstacleKind) : Inv (initState kinds) := by
  refine ⟨?_, ?_, ?_, ?_⟩
  · intro p hp
    exact absurd hp (List.not_mem_nil p)
  · intro inv hm c
    have hm' : inv ∈ [initialInventory] := hm
    rw [List.mem_singleton] at hm'
    rw [hm']
    cases c <;> decide
  · intro k id hm
    exact absurd hm (List.not_mem_nil _)
  · intro oid ob hm
    have hm' : (oid, ob) ∈ kinds.enum.map
        (fun ik => (ik.1, { kind := ik.2, health := initialHealth ik.2 : Obstacle })) := hm
    rw [List.mem_map] at hm'
    obtain ⟨⟨i, kind⟩, _, he⟩ := hm'
    rw [Prod.mk.injEq] at he
    rw [← he.2]
    cases kind <;> dsimp only <;> decide

theorem inv_step {s s' : GameState} (h : Inv s) (hs : Step s s') : Inv s' := by
  cases hs with
  | click seedSel tool k target roll => exact inv_handleClick _ seedSel tool k target roll h
  | save name => exact inv_saveGame _ name h
  | load name r hr => exact inv_loadSaveGame _ r h

theorem reachable_inv (s : GameState) (h : Reachable s) : Inv s := by
  induction h with
  | init kinds => exact inv_init kinds
  | step _ hs ih => exact inv_step ih hs

/-! ### Monotone evolution of the plant-object heap -/

theorem heapLE_refl (h : List PlantData) : heapLE h h :=
  fun _ p hp => ⟨p, hp, le_refl _, fun hb => hb⟩

theorem heapLE_trans {a b c : List PlantData} (h1 : heapLE a b) (h2 : heapLE b c) :
    heapLE a c := by
  intro i p hp
  obtain ⟨q, hq, hw1, hh1⟩ := h1 i p hp
  obtain ⟨r, hr, hw2, hh2⟩ := h2 i q hq
  exact ⟨r, hr, le_trans hw1 hw2, fun hb => hh2 (hh1 hb)⟩

theorem heapLE_append (h l : List PlantData) : heapLE h (h ++ l) := by
  intro i p hp
  refine ⟨p, ?_, le_refl _, fun hb => hb⟩
  rw [List.getElem?_append_left (List.getElem?_eq_some_iff.mp hp).1]
  exact hp

theorem heapLE_of_heap_eq {s s' : List PlantData} (he : s' = s) : heapLE s s' := by
  rw [he]
  exact heapLE_refl s

theorem tillSoil_heapLE (s : GameState) (k : TileKey) :
    heapLE s.plantHeap (tillSoil s k).plantHeap :=
  heapLE_of_heap_eq (tillSoil_plantHeap s k)

theorem plantSeed_heapLE (s : GameState) (k : TileKey) (t : CropType) :
    heapLE s.plantHeap (plantSeed s k t).2.plantHeap := by
  unfold plantSeed
  split
  · exact heapLE_refl _
  · split
    · exact heapLE_refl _
    · exact heapLE_append _ _

theorem waterPlant_nofind (s : GameState) (k : TileKey)
    (hf : findPlant s.plants k = none) : waterPlant s k = s := by
  unfold waterPlant
  rw [hf]

theorem waterPlant_dangling (s : GameState) (k : TileKey) (id : Nat)
    (hf : findPlant s.plants k = some id) (hp : s.plantHeap[id]? = none) :
    waterPlant s k = s := by
  unfold waterPlant
  rw [hf]
  dsimp only
  rw [hp]

theorem waterPlant_heapLE (s : GameState) (k : TileKey) :
    heapLE s.plantHeap (waterPlant s k).plantHeap := by
  cases hf : findPlant s.plants k with
  | none => exact heapLE_of_heap_eq (by rw [waterPlant_nofind s k hf])
  | some id =>
    cases hp : s.plantHeap[id]? with
    | none => exact heapLE_of_heap_eq (by rw [waterPlant_dangling s k id hf hp])
    | some p =>
      by_cases hcond : 3 ≤ p.waterCount ∨ p.isHarvestable = true
      · exact heapLE_of_heap_eq (by rw [waterPlant_noop s k id p hf hp hcond])
      · push_neg at hcond
        have hhb : p.isHarvestable = false := by
          cases hb : p.isHarvestable
          · rfl
          · exact absurd hb hcond.2
        rw [waterPlant_eq s k id p hf hp (by omega) hhb]
        dsimp only
        intro i q hq
        by_cases hiq : id = i
        · have hqp : q = p := by
            rw [hiq] at hp
            rw [hp] at hq
            exact (Option.some.injEq _ _).mp hq.symm
          refine ⟨growPlant { p with waterCount := p.waterCount + 1 }, ?_, ?_, ?_⟩
          · rw [← hiq]
            exact List.getElem?_set_self (List.getElem?_eq_some_iff.mp hp).1
          · rw [hqp, growPlant_waterCount]
            dsimp only
            omega
          · intro hb
            rw [hqp] at hb
            exact absurd hb hcond.2
        · refine ⟨q, ?_, le_refl _, fun hb => hb⟩
          rw [List.getElem?_set_ne hiq]
          exact hq

theorem harvestPlant_plantHeap (s : GameState) (k : TileKey) (roll : Fin 3) :
    (harvestPlant s k roll).2.plantHeap = s.plantHeap := by
  unfold harvestPlant
  split
  · rfl
  · dsimp only
    split <;> rfl

theorem damageObstacle_plantHeap (s : GameState) (oid : Nat) :
    (damageObstacle s oid).2.plantHeap = s.plantHeap := by
  unfold damageObstacle
  split
  · rfl
  · dsimp only
    split <;> rfl

theorem restorePlant_getElem (acc : GameState) (e : TileKey × Nat) (i : Nat) (p : PlantData)
    (hp : acc.plantHeap[i]? = some p) :
    (restorePlant acc e).plantHeap[i]? = some p := by
  have hlt : i < acc.plantHeap.length := (List.getElem?_eq_some_iff.mp hp).1
  have h1 : (tillSoil acc e.1).plantHeap = acc.plantHeap := tillSoil_plantHeap acc e.1
  have hlt2 : i < (tillSoil acc e.1).plantHeap.length := by
    rw [h1]
    exact hlt
  have hne : (tillSoil acc e.1).plantHeap.length ≠ i := by
    rw [h1]
    omega
  have hap : ((tillSoil acc e.1).plantHeap
      ++ [(tillSoil acc e.1).plantHeap[e.2]?.getD defaultPlant])[i]? = some p := by
    rw [List.getElem?_append_left hlt2, h1]
    exact hp
  unfold restorePlant
  dsimp only
  split
  · rw [List.getElem?_set_ne hne]
    exact hap
  · exact hap

theorem restoreTilled_plantHeap (acc : GameState) (k : TileKey) :
    (restoreTilled acc k).plantHeap = acc.plantHeap := by
  unfold restoreTilled
  split
  · rfl
  · exact tillSoil_plantHeap acc k

theorem restoreTilled_getElem (acc : GameState) (k : TileKey) (i : Nat) (p : PlantData)
    (hh : acc.plantHeap[i]? = some p) :
    (restoreTilled acc k).plantHeap[i]? = some p := by
  rw [restoreTilled_plantHeap]
  exact hh

theorem loadSaveGame_heapLE (s : GameState) (r : SaveRecord) :
    heapLE s.plantHeap (loadSaveGame s r).plantHeap := by
  unfold loadSaveGame
  dsimp only
  intro i p hp
  refine ⟨p, ?_, le_refl _, fun hb => hb⟩
  refine foldl_preserve restoreTilled (fun acc => acc.plantHeap[i]? = some p)
    (fun acc k hh => restoreTilled_getElem acc k i p hh) _ _ ?_
  refine foldl_preserve restorePlant (fun acc => acc.plantHeap[i]? = some p)
    (fun acc e hh => restorePlant_getElem acc e i p hh) _ _ ?_
  exact hp

theorem clickToolAction_heapLE (s : GameState) (tool : Tool) (k : TileKey)
    (target : Option Nat) :
    heapLE s.plantHeap (clickToolAction s tool k target).plantHeap := by
  cases tool with
  | axe =>
    cases target with
    | none => exact heapLE_refl _
    | some oid => exact heapLE_of_heap_eq (damageObstacle_plantHeap s oid)
  | hoe => exact tillSoil_heapLE s k
  | water => exact waterPlant_heapLE s k

theorem handleClick_heapLE (s : GameState) (seedSel : Option CropType) (tool : Tool)
    (k : TileKey) (target : Option Nat) (roll : Fin 3) :
    heapLE s.plantHeap (handleClick s seedSel tool k target roll).plantHeap := by
  unfold handleClick
  cases seedSel with
  | none =>
    dsimp only
    exact heapLE_trans (clickToolAction_heapLE s tool k target)
      (heapLE_of_heap_eq (harvestPlant_plantHeap _ k roll))
  | some seed =>
    dsimp only
    split
    · exact plantSeed_heapLE s k seed
    · exact heapLE_trans (clickToolAction_heapLE s tool k target)
        (heapLE_of_heap_eq (harvestPlant_plantHeap _ k roll))

theorem step_heapLE {s s' : GameState} (hs : Step s s') :
    heapLE s.plantHeap s'.plantHeap := by
  cases hs with
  | click seedSel tool k target roll => exact handleClick_heapLE _ seedSel tool k target roll
  | save name => exact heapLE_refl _
  | load name r hr => exact loadSaveGame_heapLE _ r

/-- C7.  First part: in every reachable state, every plant object has a
water count in 0..3 and is harvestable exactly when that count is 3.
Second part: across every operation, every existing plant object keeps its
identity with a never-decreasing water count and a harvestable flag that
never falls back to false (`heapLE`); a save/load cycle copies plant
objects rather than replaying water events, so it also falls under this
ordering. -/
theorem garden_C7 :
    (∀ s, Reachable s → ∀ p ∈ s.plantHeap,
        p.waterCount ≤ 3 ∧ (p.isHarvestable = true ↔ p.waterCount = 3)) ∧
    (∀ s s', Step s s' → heapLE s.plantHeap s'.plantHeap) :=
  ⟨fun s hs => (reachable_inv s hs).heapWf, fun _ _ hs => step_heapLE hs⟩

/-- Witness for C7: the plant object created by planting corn in a fresh
session, and heap monotonicity across a concrete save step. -/
theorem garden_C7_witness :
    (PlantData.waterCount ⟨CropType.corn, 0, 0, false⟩ ≤ 3 ∧
      (PlantData.isHarvestable ⟨CropType.corn, 0, 0, false⟩ = true ↔
        PlantData.waterCount ⟨CropType.corn, 0, 0, false⟩ = 3)) ∧
    heapLE (initState []).plantHeap (saveGame (initState []) "w").plantHeap := by
  constructor
  · exact garden_C7.1
      (handleClick (handleClick (initState []) none Tool.hoe (0, 0) none 0)
        (some CropType.corn) Tool.hoe (0, 0) none 0)
      (Reachable.step
        (Reachable.step (Reachable.init []) (Step.click _ none Tool.hoe (0, 0) none 0))
        (Step.click _ (some CropType.corn) Tool.hoe (0, 0) none 0))
      ⟨CropType.corn, 0, 0, false⟩ (by decide)
  · exact garden_C7.2 _ _ (Step.save (initState []) "w")

/-- C8.  In every state reachable through the dispatcher and save/load,
every planted key is tilled; and a key can be tilled with no plant. -/
theorem garden_C8 :
    (∀ s, Reachable s → ∀ k id, (k, id) ∈ s.plants → k ∈ s.tilledSoil) ∧
    (∃ s, Reachable s ∧ ((0 : Int), (0 : Int)) ∈ s.tilledSoil ∧
      findPlant s.plants ((0 : Int), (0 : Int)) = none) := by
  constructor
  · intro s hs
    exact (reachable_inv s hs).plantsTilled
  · refine ⟨handleClick (initState []) none Tool.hoe (0, 0) none 0, ?_, ?_, ?_⟩
    · exact Reachable.step (Reachable.init []) (Step.click _ none Tool.hoe (0, 0) none 0)
    · decide
    · decide

/-- Witness for C8: in the reachable state where corn was planted at (0,0),
the planted key is tilled. -/
theorem garden_C8_witness :
    ((0 : Int), (0 : Int)) ∈ (handleClick (handleClick (initState []) none Tool.hoe (0, 0) none 0)
      (some CropType.corn) Tool.hoe (0, 0) none 0).tilledSoil :=
  garden_C8.1 _
    (Reachable.step
      (Reachable.step (Reachable.init []) (Step.click _ none Tool.hoe (0, 0) none 0))
      (Step.click _ (some CropType.corn) Tool.hoe (0, 0) none 0))
    ((0 : Int), (0 : Int)) 0 (by decide)

/-- C9.  Inventory counts are never negative in any reachable state;
planting debits exactly 1 and only when the count is at least 1 (with a
zero-or-less count the whole state is unchanged); harvesting credits by an
amount in 1..3. -/
theorem garden_C9 :
    (∀ s, Reachable s → ∀ c, 0 ≤ (liveInventory s).get c) ∧
    (∀ s (k : TileKey) (t : CropType), k ∈ s.tilledSoil → findPlant s.plants k = none →
        1 ≤ (liveInventory s).get t →
        (liveInventory (plantSeedAction s k t).2).get t = (liveInventory s).get t - 1) ∧
    (∀ s (k : TileKey) (t : CropType), (liveInventory s).get t ≤ 0 →
        (plantSeedAction s k t).2 = s) ∧
    (∀ s (k : TileKey) (roll : Fin 3) (id : Nat) (p : PlantData),
        s.invId < s.invHeap.length →
        findPlant s.plants k = some id → s.plantHeap[id]? = some p →
        p.isHarvestable = true →
        (liveInventory (harvestPlant s k roll).2).get p.type
          = (liveInventory s).get p.type + (roll.val + 1) ∧
        1 ≤ roll.val + 1 ∧ roll.val + 1 ≤ 3) := by
  refine ⟨?_, ?_, ?_, ?_⟩
  · intro s hs c
    exact liveInventory_nonneg s (reachable_inv s hs) c
  · intro s k t htill hnone hone
    have hlt : s.invId < s.invHeap.length := invId_lt_of_get_pos s t (by omega)
    rw [show plantSeedAction s k t = plantSeed s k t from by unfold plantSeedAction; rw [if_pos htill],
      plantSeed_success s k t hnone hone]
    dsimp only
    rw [liveInventory_write, Inventory.get_setCount, if_pos rfl]
    exact hlt
  · intro s k t hz
    unfold plantSeedAction
    split
    · by_cases hps : (findPlant s.plants k).isSome
      · rw [plantSeed_already s k t hps]
      · rw [plantSeed_insufficient s k t (Option.not_isSome_iff_eq_none.mp hps) hz]
    · rfl
  · intro s k roll id p hinv hf hp hh
    obtain ⟨_, _, _, _, _, _, hid, hih⟩ := harvestPlant_success s k roll id p hf hp hh
    refine ⟨?_, by omega, by omega⟩
    rw [liveInventory, hid, hih, List.getElem?_set_self hinv, Option.getD_some,
      Inventory.get_setCount, if_pos rfl]

/-- Witness for C9: non-negativity at the fresh state, and the
zero-count planting no-op on a state whose corn count is 0. -/
theorem garden_C9_witness :
    (0 : Int) ≤ (liveInventory (initState [])).get CropType.corn ∧
    (plantSeedAction ⟨[], [⟨0, 5, 5, 5⟩], 0, [], [((0 : Int), (0 : Int))], [], []⟩
        ((0 : Int), (0 : Int)) CropType.corn).2
      = ⟨[], [⟨0, 5, 5, 5⟩], 0, [], [((0 : Int), (0 : Int))], [], []⟩ :=
  ⟨garden_C9.1 (initState []) (Reachable.init []) CropType.corn,
    garden_C9.2.2.1 _ ((0 : Int), (0 : Int)) CropType.corn (by decide)⟩

/-- C10.  In every reachable state, every obstacle still in the live set
has health at least 1: `damageObstacle` removes an obstacle in the very
call in which its health reaches 0 or below. -/
theorem garden_C10 (s : GameState) (hs : Reachable s) :
    ∀ oid ob, (oid, ob) ∈ s.obstacles → 1 ≤ ob.health :=
  (reachable_inv s hs).obsHealth

/-- Witness for C10 at a freshly generated single tree. -/
theorem garden_C10_witness :
    (1 : Int) ≤ Obstacle.health ⟨ObstacleKind.tree, 7⟩ :=
  garden_C10 (initState [ObstacleKind.tree]) (Reachable.init [ObstacleKind.tree])
    0 ⟨ObstacleKind.tree, 7⟩ (by decide)

end Garden
